import Mathlib

/-!
Verification of the gate-algebra core of `cirq/ops/common_gates.py`.

The concrete gate classes (`Rot11Gate`, `RotXGate`, `RotYGate`, `RotZGate`,
`CNotGate`, `HGate`, `SwapGate`, `MeasurementGate`) and the free functions
`measure` / `measure_each` are embedded below.  Gate matrices are represented
exactly over the ring `ℚ[√2, i]`, which contains every matrix entry appearing
in the source (the eigen-component entries are rational or rational multiples
of `i`, and the Hadamard matrix has entries `±√(1/2)`), so no floating-point
approximation is involved.

The abstract base class `eigen_gate.EigenGate` (exponent storage,
canonicalization, `__pow__`, equality) is not part of the source excerpt; the
definitions that depend on it are modelled from the specification and are
marked `Modelled from the spec:` in their doc comments.
-/

namespace Cirq

/-- Element `a + b·√2 + (c + d·√2)·i` of the ring ℚ[√2, i].  All matrix
entries used by the embedded gates live in this ring. -/
structure K where
  a : ℚ
  b : ℚ
  c : ℚ
  d : ℚ
deriving DecidableEq

/-- Addition in ℚ[√2, i], componentwise. -/
def K.add : K → K → K
  | ⟨a1, b1, c1, d1⟩, ⟨a2, b2, c2, d2⟩ => ⟨a1 + a2, b1 + b2, c1 + c2, d1 + d2⟩

/-- Multiplication in ℚ[√2, i], using `√2 · √2 = 2` and `i · i = -1`. -/
def K.mul : K → K → K
  | ⟨a1, b1, c1, d1⟩, ⟨a2, b2, c2, d2⟩ =>
    ⟨a1 * a2 + 2 * b1 * b2 - c1 * c2 - 2 * d1 * d2,
     a1 * b2 + b1 * a2 - c1 * d2 - d1 * c2,
     a1 * c2 + c1 * a2 + 2 * b1 * d2 + 2 * d1 * b2,
     a1 * d2 + d1 * a2 + b1 * c2 + c1 * b2⟩

/-- Negation in ℚ[√2, i]. -/
def K.neg : K → K
  | ⟨a1, b1, c1, d1⟩ => ⟨-a1, -b1, -c1, -d1⟩

/-- Complex conjugation on ℚ[√2, i]: negates the two imaginary components. -/
def K.conj : K → K
  | ⟨a1, b1, c1, d1⟩ => ⟨a1, b1, -c1, -d1⟩

/-- The rational `q` as an element of ℚ[√2, i]. -/
def Kq (q : ℚ) : K := ⟨q, 0, 0, 0⟩

/-- The purely imaginary rational `q·i` as an element of ℚ[√2, i]. -/
def Ki (q : ℚ) : K := ⟨0, 0, q, 0⟩

/-- The element `q·√2` of ℚ[√2, i]. -/
def Ks (q : ℚ) : K := ⟨0, q, 0, 0⟩

/-- Zero of ℚ[√2, i]. -/
def K0 : K := ⟨0, 0, 0, 0⟩

/-- One of ℚ[√2, i]. -/
def K1 : K := ⟨1, 0, 0, 0⟩

/-- A dense 2×2 matrix over ℚ[√2, i], row-major. -/
structure M2 where
  e00 : K
  e01 : K
  e10 : K
  e11 : K
deriving DecidableEq

/-- A dense 4×4 matrix over ℚ[√2, i], row-major. -/
structure M4 where
  e00 : K
  e01 : K
  e02 : K
  e03 : K
  e10 : K
  e11 : K
  e12 : K
  e13 : K
  e20 : K
  e21 : K
  e22 : K
  e23 : K
  e30 : K
  e31 : K
  e32 : K
  e33 : K
deriving DecidableEq

/-- 2×2 identity matrix. -/
def id2 : M2 := ⟨K1, K0, K0, K1⟩

/-- 4×4 identity matrix. -/
def id4 : M4 :=
  ⟨K1, K0, K0, K0,
   K0, K1, K0, K0,
   K0, K0, K1, K0,
   K0, K0, K0, K1⟩

/-- 2×2 matrix product. -/
def mul2 (m n : M2) : M2 :=
  ⟨K.add (K.mul m.e00 n.e00) (K.mul m.e01 n.e10),
   K.add (K.mul m.e00 n.e01) (K.mul m.e01 n.e11),
   K.add (K.mul m.e10 n.e00) (K.mul m.e11 n.e10),
   K.add (K.mul m.e10 n.e01) (K.mul m.e11 n.e11)⟩

/-- Dot product of a length-4 row and column, used by `mul4`. -/
def dot4 (r0 r1 r2 r3 c0 c1 c2 c3 : K) : K :=
  K.add (K.add (K.mul r0 c0) (K.mul r1 c1)) (K.add (K.mul r2 c2) (K.mul r3 c3))

/-- 4×4 matrix product. -/
def mul4 (m n : M4) : M4 :=
  ⟨dot4 m.e00 m.e01 m.e02 m.e03 n.e00 n.e10 n.e20 n.e30,
   dot4 m.e00 m.e01 m.e02 m.e03 n.e01 n.e11 n.e21 n.e31,
   dot4 m.e00 m.e01 m.e02 m.e03 n.e02 n.e12 n.e22 n.e32,
   dot4 m.e00 m.e01 m.e02 m.e03 n.e03 n.e13 n.e23 n.e33,
   dot4 m.e10 m.e11 m.e12 m.e13 n.e00 n.e10 n.e20 n.e30,
   dot4 m.e10 m.e11 m.e12 m.e13 n.e01 n.e11 n.e21 n.e31,
   dot4 m.e10 m.e11 m.e12 m.e13 n.e02 n.e12 n.e22 n.e32,
   dot4 m.e10 m.e11 m.e12 m.e13 n.e03 n.e13 n.e23 n.e33,
   dot4 m.e20 m.e21 m.e22 m.e23 n.e00 n.e10 n.e20 n.e30,
   dot4 m.e20 m.e21 m.e22 m.e23 n.e01 n.e11 n.e21 n.e31,
   dot4 m.e20 m.e21 m.e22 m.e23 n.e02 n.e12 n.e22 n.e32,
   dot4 m.e20 m.e21 m.e22 m.e23 n.e03 n.e13 n.e23 n.e33,
   dot4 m.e30 m.e31 m.e32 m.e33 n.e00 n.e10 n.e20 n.e30,
   dot4 m.e30 m.e31 m.e32 m.e33 n.e01 n.e11 n.e21 n.e31,
   dot4 m.e30 m.e31 m.e32 m.e33 n.e02 n.e12 n.e22 n.e32,
   dot4 m.e30 m.e31 m.e32 m.e33 n.e03 n.e13 n.e23 n.e33⟩

/-- Conjugate transpose of a 2×2 matrix. -/
def conjTrans2 (m : M2) : M2 :=
  ⟨K.conj m.e00, K.conj m.e10, K.conj m.e01, K.conj m.e11⟩

/-- Conjugate transpose of a 4×4 matrix. -/
def conjTrans4 (m : M4) : M4 :=
  ⟨K.conj m.e00, K.conj m.e10, K.conj m.e20, K.conj m.e30,
   K.conj m.e01, K.conj m.e11, K.conj m.e21, K.conj m.e31,
   K.conj m.e02, K.conj m.e12, K.conj m.e22, K.conj m.e32,
   K.conj m.e03, K.conj m.e13, K.conj m.e23, K.conj m.e33⟩

/-- Scalar multiple of a 2×2 matrix. -/
def smul2 (z : K) (m : M2) : M2 :=
  ⟨K.mul z m.e00, K.mul z m.e01, K.mul z m.e10, K.mul z m.e11⟩

/-- Scalar multiple of a 4×4 matrix. -/
def smul4 (z : K) (m : M4) : M4 :=
  ⟨K.mul z m.e00, K.mul z m.e01, K.mul z m.e02, K.mul z m.e03,
   K.mul z m.e10, K.mul z m.e11, K.mul z m.e12, K.mul z m.e13,
   K.mul z m.e20, K.mul z m.e21, K.mul z m.e22, K.mul z m.e23,
   K.mul z m.e30, K.mul z m.e31, K.mul z m.e32, K.mul z m.e33⟩

/-- Entrywise sum of 2×2 matrices. -/
def add2 (m n : M2) : M2 :=
  ⟨K.add m.e00 n.e00, K.add m.e01 n.e01, K.add m.e10 n.e10, K.add m.e11 n.e11⟩

/-- Entrywise sum of 4×4 matrices. -/
def add4 (m n : M4) : M4 :=
  ⟨K.add m.e00 n.e00, K.add m.e01 n.e01, K.add m.e02 n.e02, K.add m.e03 n.e03,
   K.add m.e10 n.e10, K.add m.e11 n.e11, K.add m.e12 n.e12, K.add m.e13 n.e13,
   K.add m.e20 n.e20, K.add m.e21 n.e21, K.add m.e22 n.e22, K.add m.e23 n.e23,
   K.add m.e30 n.e30, K.add m.e31 n.e31, K.add m.e32 n.e32, K.add m.e33 n.e33⟩

/-- Kronecker product of two 2×2 matrices (first factor is the most
significant qubit, matching the row-major basis |q0 q1⟩). -/
def kron22 (m n : M2) : M4 :=
  ⟨K.mul m.e00 n.e00, K.mul m.e00 n.e01, K.mul m.e01 n.e00, K.mul m.e01 n.e01,
   K.mul m.e00 n.e10, K.mul m.e00 n.e11, K.mul m.e01 n.e10, K.mul m.e01 n.e11,
   K.mul m.e10 n.e00, K.mul m.e10 n.e01, K.mul m.e11 n.e00, K.mul m.e11 n.e01,
   K.mul m.e10 n.e10, K.mul m.e10 n.e11, K.mul m.e11 n.e10, K.mul m.e11 n.e11⟩

/-- Reindexing of a two-qubit matrix under exchange of the two qubits:
entry `(i, j)` becomes entry `(σ i, σ j)` where `σ` swaps the two bits of a
basis index (`σ = [0, 2, 1, 3]`).  This is the matrix of the same gate
applied with its two qubit arguments given in the opposite order. -/
def flipQubits4 (g : M4) : M4 :=
  ⟨g.e00, g.e02, g.e01, g.e03,
   g.e20, g.e22, g.e21, g.e23,
   g.e10, g.e12, g.e11, g.e13,
   g.e30, g.e32, g.e31, g.e33⟩

/-- Modelled from the spec: the total unitary of a sequence of operations on
one qubit (`circuit_matrix`, owned by the circuit collaborator outside the
excerpt).  Operations are listed in application order, so the product is
taken with the later operations on the left. -/
def compose2 (ops : List M2) : M2 := ops.foldl (fun acc u => mul2 u acc) id2

/-- Modelled from the spec: the total unitary of a sequence of operations on
two qubits, later operations multiplied on the left. -/
def compose4 (ops : List M4) : M4 := ops.foldl (fun acc u => mul4 u acc) id4

/-- Modelled from the spec: an eigen-decomposed gate's matrix is
`Σ exp(i·π·half_turns·index) · P_index`.  For the two-component gates of the
source the indices are `0` and `1`, so the matrix at a given exponent is
`P₀ + z · P₁` with `z = exp(i·π·half_turns)`; `z` is passed explicitly for
the exponents at which it is representable in ℚ[√2, i]. -/
def eigenMat2 (p0 p1 : M2) (z : K) : M2 := add2 p0 (smul2 z p1)

/-- Modelled from the spec: two-qubit version of `eigenMat2`. -/
def eigenMat4 (p0 p1 : M4) (z : K) : M4 := add4 p0 (smul4 z p1)

/-- The imaginary unit `i = exp(i·π·(1/2))`. -/
def kI : K := ⟨0, 0, 1, 0⟩

/-- `-1 = exp(i·π·1)`. -/
def kNeg1 : K := ⟨-1, 0, 0, 0⟩

/-- `-i = exp(i·π·(-1/2))`. -/
def kNegI : K := ⟨0, 0, -1, 0⟩

/-- Eigen component of `RotXGate` with index 0: `[[0.5, 0.5], [0.5, 0.5]]`. -/
def xP0 : M2 := ⟨Kq (1/2), Kq (1/2), Kq (1/2), Kq (1/2)⟩

/-- Eigen component of `RotXGate` with index 1: `[[0.5, -0.5], [-0.5, 0.5]]`. -/
def xP1 : M2 := ⟨Kq (1/2), Kq (-(1/2)), Kq (-(1/2)), Kq (1/2)⟩

/-- Eigen component of `RotYGate` with index 0: `[[0.5, -0.5j], [0.5j, 0.5]]`. -/
def yP0 : M2 := ⟨Kq (1/2), Ki (-(1/2)), Ki (1/2), Kq (1/2)⟩

/-- Eigen component of `RotYGate` with index 1: `[[0.5, 0.5j], [-0.5j, 0.5]]`. -/
def yP1 : M2 := ⟨Kq (1/2), Ki (1/2), Ki (-(1/2)), Kq (1/2)⟩

/-- Eigen component of `RotZGate` with index 0: `diag(1, 0)`. -/
def zP0 : M2 := ⟨K1, K0, K0, K0⟩

/-- Eigen component of `RotZGate` with index 1: `diag(0, 1)`. -/
def zP1 : M2 := ⟨K0, K0, K0, K1⟩

/-- Eigen component of `Rot11Gate` with index 0: `diag(1, 1, 1, 0)`. -/
def czP0 : M4 :=
  ⟨K1, K0, K0, K0,
   K0, K1, K0, K0,
   K0, K0, K1, K0,
   K0, K0, K0, K0⟩

/-- Eigen component of `Rot11Gate` with index 1: `diag(0, 0, 0, 1)`. -/
def czP1 : M4 :=
  ⟨K0, K0, K0, K0,
   K0, K0, K0, K0,
   K0, K0, K0, K0,
   K0, K0, K0, K1⟩

/-- Eigen component of `CNotGate` with index 0. -/
def cnotP0 : M4 :=
  ⟨K1, K0, K0, K0,
   K0, K1, K0, K0,
   K0, K0, Kq (1/2), Kq (1/2),
   K0, K0, Kq (1/2), Kq (1/2)⟩

/-- Eigen component of `CNotGate` with index 1. -/
def cnotP1 : M4 :=
  ⟨K0, K0, K0, K0,
   K0, K0, K0, K0,
   K0, K0, Kq (1/2), Kq (-(1/2)),
   K0, K0, Kq (-(1/2)), Kq (1/2)⟩

/-- Matrix of `X = RotXGate()` at its default exponent 1. -/
def xMat : M2 := eigenMat2 xP0 xP1 kNeg1

/-- Matrix of `Y = RotYGate()` at its default exponent 1. -/
def yMat : M2 := eigenMat2 yP0 yP1 kNeg1

/-- Matrix of `Z = RotZGate()` at its default exponent 1. -/
def zMat : M2 := eigenMat2 zP0 zP1 kNeg1

/-- Matrix of the gate `Y**0.5` (exponent `1/2`, so `z = i`). -/
def yHalfMat : M2 := eigenMat2 yP0 yP1 kI

/-- Matrix of the gate `Y**-0.5` (exponent `-1/2`, so `z = -i`). -/
def yNegHalfMat : M2 := eigenMat2 yP0 yP1 kNegI

/-- Matrix of `CZ = Rot11Gate()` at its default exponent 1. -/
def czMat : M4 := eigenMat4 czP0 czP1 kNeg1

/-- Matrix of `CNOT = CNotGate()` at its default exponent 1. -/
def cnotMat : M4 := eigenMat4 cnotP0 cnotP1 kNeg1

/-- `HGate.matrix()`: `[[s, s], [s, -s]]` with `s = sqrt(0.5) = √2/2`. -/
def hMat : M2 := ⟨Ks (1/2), Ks (1/2), Ks (1/2), Ks (-(1/2))⟩

/-- `SwapGate.matrix()`: the 0/1 permutation matrix exchanging `|01⟩`, `|10⟩`. -/
def swapMat : M4 :=
  ⟨K1, K0, K0, K0,
   K0, K0, K1, K0,
   K0, K1, K0, K0,
   K0, K0, K0, K1⟩

/-- `HGate.default_decompose(qubits)` from the source: it yields `Y(q)**0.5`
then `X(q)` on the single qubit `q = qubits[0]`. -/
def hDecomposeOps : List M2 := [yHalfMat, xMat]

/-- `CNotGate.default_decompose(qubits)` from the source at the default
exponent `half_turns = 1`: it yields `Y(t)**-0.5`, then
`Rot11Gate(half_turns=1).on(c, t)`, then `Y(t)**0.5`, where `c, t = qubits`.
The single-qubit operations act on the target `t = qubits[1]` (the less
significant qubit), hence the Kronecker products with the identity on the
control. -/
def cnotDecomposeOps : List M4 := [kron22 id2 yNegHalfMat, czMat, kron22 id2 yHalfMat]

/-- `SwapGate.default_decompose(qubits)` from the source: it yields
`CNOT(a, b)`, `CNOT(b, a)`, `CNOT(a, b)` for `a, b = qubits`; the middle
operation has the qubit roles exchanged, hence the reindexing. -/
def swapDecomposeOps : List M4 := [cnotMat, flipQubits4 cnotMat, cnotMat]

/-- The type tag of the five concrete exponentiable gate classes of the
source (`Rot11Gate`, `RotXGate`, `RotYGate`, `RotZGate`, `CNotGate`). -/
inductive EGateType where
  | rot11
  | rotX
  | rotY
  | rotZ
  | cnot
deriving DecidableEq

/-- An instance of a concrete exponentiable gate: its class and the stored
exponent (`half_turns`).  Exponents are modelled as rationals; the symbolic
(`Symbol`) branch of the source is outside the scope of the claims. -/
structure EGate where
  ty : EGateType
  exponent : ℚ
deriving DecidableEq

/-- `_canonical_exponent_period` from the source: every one of the five
concrete gate classes returns `2`. -/
def canonicalPeriod : EGateType → ℚ := fun _ => 2

/-- Modelled from the spec: `eigen_gate.EigenGate` is not part of the source
excerpt.  A concrete exponent is "taken modulo the canonical period …
canonicalized into the half-open range that keeps output deterministic"; we
use Python's `%` convention, the half-open range `[0, period)`.  Any
convention that identifies exponents congruent modulo the period gives the
same equality verdicts. -/
def canonicalizeExponent (e period : ℚ) : ℚ := e - period * ⌊e / period⌋

/-- Modelled from the spec: `raise_to_power` (the meaning of `gate ** power`)
"multiplies the stored exponent by the given power" and, both being concrete
numbers here, canonicalizes the product modulo the canonical period,
returning a new gate instance of the same class. -/
def raiseToPower (g : EGate) (power : ℚ) : EGate :=
  ⟨g.ty, canonicalizeExponent (g.exponent * power) (canonicalPeriod g.ty)⟩

/-- Modelled from the spec: Python `==` on gates — "two instances of the same
gate type are equal if their exponents are equal after canonicalization
through the period". -/
def pyEq (g h : EGate) : Prop :=
  g.ty = h.ty ∧
    canonicalizeExponent g.exponent (canonicalPeriod g.ty) =
      canonicalizeExponent h.exponent (canonicalPeriod h.ty)

/-- The named constant `X = RotXGate()` (default `half_turns=1.0`). -/
def Xgate : EGate := ⟨EGateType.rotX, 1⟩

/-- The named constant `Y = RotYGate()`. -/
def Ygate : EGate := ⟨EGateType.rotY, 1⟩

/-- The named constant `Z = RotZGate()`. -/
def Zgate : EGate := ⟨EGateType.rotZ, 1⟩

/-- The named constant `CZ = Rot11Gate()`. -/
def CZgate : EGate := ⟨EGateType.rot11, 1⟩

/-- The named constant `CNOT = CNotGate()`. -/
def CNOTgate : EGate := ⟨EGateType.cnot, 1⟩

/-- Decimal digits of the fractional part of `q` (`0 ≤ q < 1` at call sites),
produced by repeated multiplication by 10; the fuel bounds the number of
digits and is never exhausted for the short terminating decimals that occur
in the claims. -/
def fracDigits : ℕ → ℚ → List ℕ
  | 0, _ => []
  | fuel + 1, q =>
    if q = 0 then []
    else (⌊q * 10⌋).toNat :: fracDigits fuel (q * 10 - ((⌊q * 10⌋ : ℤ) : ℚ))

/-- Modelled from the spec: Python's `repr` of a float value with a short
terminating decimal expansion (`repr(0.5) == '0.5'`, `repr(1.0) == '1.0'`),
as used by the gates' `__repr__` through `'{!r}'.format(half_turns)`. -/
def pyFloatRepr (q : ℚ) : String :=
  let sign := if q < 0 then "-" else ""
  let ip := (⌊|q|⌋).toNat
  let ds := fracDigits 30 (|q| - (ip : ℚ))
  sign ++ toString ip ++ "." ++
    (if ds.isEmpty then "0" else String.join (ds.map (fun d => toString d)))

/-- The `__repr__` methods of the five concrete gate classes, combined and
dispatched on the class tag.  Each branch follows the source: the class name
when `half_turns == 1`, otherwise `name ++ '**' ++ repr(half_turns)`; for
`RotZGate` the source additionally returns plain `'Z'` when
`half_turns == 0.5`. -/
def reprEGate (g : EGate) : String :=
  match g.ty with
  | EGateType.rot11 => if g.exponent = 1 then "CZ" else "CZ**" ++ pyFloatRepr g.exponent
  | EGateType.rotX => if g.exponent = 1 then "X" else "X**" ++ pyFloatRepr g.exponent
  | EGateType.rotY => if g.exponent = 1 then "Y" else "Y**" ++ pyFloatRepr g.exponent
  | EGateType.rotZ =>
    if g.exponent = 1 then "Z"
    else if g.exponent = 1/2 then "Z"
    else "Z**" ++ pyFloatRepr g.exponent
  | EGateType.cnot => if g.exponent = 1 then "CNOT" else "CNOT**" ++ pyFloatRepr g.exponent

/-- A Python value returned by `text_diagram_wire_symbols`: either a bare
string or a tuple of strings. -/
inductive TDReturn where
  | single (s : String)
  | tup (ss : List String)
deriving DecidableEq

/-- `RotZGate.text_diagram_wire_symbols` from the source: it returns the bare
string `'S'` when `abs(half_turns) == 0.5`, the bare string `'T'` when
`abs(half_turns) == 0.25` (these two `return` statements have no trailing
comma, so they produce strings, not tuples), and the one-element tuple
`('Z',)` otherwise. -/
def rotZWireSymbols (halfTurns : ℚ) : TDReturn :=
  if |halfTurns| = 1/2 then TDReturn.single "S"
  else if |halfTurns| = 1/4 then TDReturn.single "T"
  else TDReturn.tup ["Z"]

/-- `MeasurementGate` from the source: a result key and an optional per-qubit
inversion mask.  Qubits are modelled as natural numbers and Python `str(q)`
as `toString`. -/
structure MeasurementGate where
  key : Option String
  invertMask : Option (List Bool)
deriving DecidableEq

/-- A gate applied to a list of qubits (`raw_types.Operation` restricted to
measurement gates, which is all the claims need). -/
structure Operation where
  gate : MeasurementGate
  qubits : List ℕ
deriving DecidableEq

/-- `Gate.on`: applies the gate to the given qubits, packaging it as an
operation. -/
def MeasurementGate.on (g : MeasurementGate) (qs : List ℕ) : Operation := ⟨g, qs⟩

/-- `MeasurementGate.on_each(targets)` from the source:
`[self.on(target) for target in targets]` — the same gate object `self` is
applied to each target separately. -/
def MeasurementGate.onEach (g : MeasurementGate) (targets : List ℕ) : List Operation :=
  targets.map (fun t => g.on [t])

/-- `MeasurementGate.validate_args(qubits)` from the source: raises
`ValueError('len(invert_mask) > len(qubits)')` when the mask is present and
longer than the qubit list, and otherwise returns `None`; the raise is
modelled as `Except.error`. -/
def MeasurementGate.validateArgs (g : MeasurementGate) (qubits : List ℕ) :
    Except String Unit :=
  match g.invertMask with
  | some mask =>
    if mask.length > qubits.length then Except.error "len(invert_mask) > len(qubits)"
    else Except.ok ()
  | none => Except.ok ()

/-- Models Python `','.join(strs)`. -/
def commaJoin : List String → String
  | [] => ""
  | [s] => s
  | s :: rest => s ++ "," ++ commaJoin rest

/-- The free function `measure(*qubits, key=None, invert_mask=None)` from the
source: when no key is given it synthesizes `','.join(str(q) for q in
qubits)`, then returns `MeasurementGate(key, invert_mask).on(*qubits)`. -/
def measure (qubits : List ℕ) (key : Option String)
    (invertMask : Option (List Bool)) : Operation :=
  let k := match key with
    | none => commaJoin (qubits.map (fun q => toString q))
    | some s => s
  MeasurementGate.on ⟨some k, invertMask⟩ qubits

/-- The `__init__` of the five concrete exponentiable gate classes: they each
take `*positional_args` plus the keyword `half_turns` and begin with
`assert not positional_args`, so any positional argument raises
`AssertionError` at construction time.  Positional arguments are modelled as
an opaque list (only their presence matters to the assert). -/
def mkEigenGate (ty : EGateType) (positionalArgs : List Unit) (halfTurns : ℚ) :
    Except String EGate :=
  if positionalArgs = [] then Except.ok ⟨ty, halfTurns⟩
  else Except.error "AssertionError"

/-- `⌊q⌋ = n` follows from the two defining bounds; evaluation helper for the
concrete floors appearing in canonicalized exponents and decimal digits. -/
theorem floor_eq_of_bounds (q : ℚ) (n : ℤ) (h1 : (n : ℚ) ≤ q) (h2 : q < n + 1) :
    ⌊q⌋ = n := by
  rw [Int.floor_eq_iff]
  · exact ⟨h1, h2⟩

/-- Canonicalization is invariant under shifting the exponent by an integer
multiple of the period 2. -/
theorem canonicalize_add_int_mul (x : ℚ) (n : ℤ) :
    canonicalizeExponent (x + 2 * n) 2 = canonicalizeExponent x 2 := by
  unfold canonicalizeExponent
  have h : (x + 2 * n) / 2 = x / 2 + n := by ring
  rw [h, Int.floor_add_int]
  push_cast
  ring

set_option maxHeartbeats 2000000 in
/-- C3: For every concrete gate matrix — `HGate.matrix()` and
`SwapGate.matrix()` as given directly in the source, and the matrices of the
eigen-decomposed gates `X`, `Y`, `Z`, `CZ`, `CNOT` at their default exponent —
the product of the matrix with its conjugate transpose is the identity. -/
theorem gate_matrices_unitary :
    mul2 hMat (conjTrans2 hMat) = id2 ∧
    mul4 swapMat (conjTrans4 swapMat) = id4 ∧
    mul2 xMat (conjTrans2 xMat) = id2 ∧
    mul2 yMat (conjTrans2 yMat) = id2 ∧
    mul2 zMat (conjTrans2 zMat) = id2 ∧
    mul4 czMat (conjTrans4 czMat) = id4 ∧
    mul4 cnotMat (conjTrans4 cnotMat) = id4 := by
  refine ⟨?_, ?_, ?_, ?_, ?_, ?_, ?_⟩ <;>
    norm_num [hMat, swapMat, xMat, yMat, zMat, czMat, cnotMat, eigenMat2,
      eigenMat4, xP0, xP1, yP0, yP1, zP0, zP1, czP0, czP1, cnotP0, cnotP1,
      add2, add4, smul2, smul4, mul2, mul4, dot4, conjTrans2, conjTrans4,
      kI, kNeg1, kNegI, K.mul, K.add, K.conj, Kq, Ki, Ks, K0, K1, id2, id4]

set_option maxHeartbeats 4000000 in
/-- C2: For `HGate`, `CNotGate` and `SwapGate`, composing (in order) the
gates yielded by `default_decompose` on the gate's qubits reproduces the
gate's own matrix up to a global phase factor (a unit-modulus scalar).  For
`HGate` the phase is `(1+i)/√2`; for `CNotGate` and `SwapGate` it is `1`. -/
theorem default_decompose_matches_matrix :
    (∃ p, K.mul p (K.conj p) = K1 ∧ compose2 hDecomposeOps = smul2 p hMat) ∧
    (∃ p, K.mul p (K.conj p) = K1 ∧ compose4 cnotDecomposeOps = smul4 p cnotMat) ∧
    (∃ p, K.mul p (K.conj p) = K1 ∧ compose4 swapDecomposeOps = smul4 p swapMat) := by
  refine ⟨⟨⟨0, 1/2, 0, 1/2⟩, ?_, ?_⟩, ⟨K1, ?_, ?_⟩, ⟨K1, ?_, ?_⟩⟩ <;>
    norm_num [hDecomposeOps, cnotDecomposeOps, swapDecomposeOps, compose2,
      compose4, List.foldl, hMat, swapMat, xMat, yHalfMat, yNegHalfMat, czMat,
      cnotMat, eigenMat2, eigenMat4, xP0, xP1, yP0, yP1, czP0, czP1, cnotP0,
      cnotP1, add2, add4, smul2, smul4, mul2, mul4, dot4, kron22, flipQubits4,
      kI, kNeg1, kNegI, K.mul, K.add, K.conj, Kq, Ki, Ks, K0, K1, id2, id4]

/-- Unfolding step for `fracDigits` at positive fuel. -/
theorem fracDigits_succ (fuel : ℕ) (q : ℚ) :
    fracDigits (fuel + 1) q =
      if q = 0 then []
      else (⌊q * 10⌋).toNat :: fracDigits fuel (q * 10 - ((⌊q * 10⌋ : ℤ) : ℚ)) := rfl

/-- Evaluation of the modelled Python float repr at `0.5`. -/
theorem pyFloatRepr_half : pyFloatRepr (1/2) = "0.5" := by
  have habs : |(1/2 : ℚ)| = 1/2 := abs_of_pos (by norm_num)
  have hf0 : (⌊(1/2 : ℚ)⌋ : ℤ) = 0 := floor_eq_of_bounds _ _ (by norm_num) (by norm_num)
  have hf5 : (⌊(1/2 : ℚ) * 10⌋ : ℤ) = 5 := floor_eq_of_bounds _ _ (by norm_num) (by norm_num)
  have hds : fracDigits 30 (1/2) = [5] := by
    rw [show (30 : ℕ) = 29 + 1 from rfl, fracDigits_succ, if_neg (by norm_num), hf5]
    rw [show ((1/2 : ℚ) * 10 - ((5 : ℤ) : ℚ)) = 0 from by norm_num]
    rw [show (29 : ℕ) = 28 + 1 from rfl, fracDigits_succ, if_pos rfl]
    rfl
  unfold pyFloatRepr
  rw [if_neg (by norm_num), habs, hf0]
  simp only [Int.toNat_zero, Nat.cast_zero, sub_zero, hds]
  rfl

/-- `canonicalizeExponent 1 2 = 1`. -/
theorem canon_one : canonicalizeExponent 1 2 = 1 := by
  unfold canonicalizeExponent
  rw [show ((1 : ℚ) / 2) = 1/2 from rfl,
    floor_eq_of_bounds (1/2) 0 (by norm_num) (by norm_num)]
  norm_num

/-- `canonicalizeExponent (1/2) 2 = 1/2`. -/
theorem canon_half : canonicalizeExponent (1/2) 2 = 1/2 := by
  unfold canonicalizeExponent
  rw [show ((1/2 : ℚ) / 2) = 1/4 from by norm_num,
    floor_eq_of_bounds (1/4) 0 (by norm_num) (by norm_num)]
  norm_num

/-- `canonicalizeExponent 0 2 = 0`. -/
theorem canon_zero : canonicalizeExponent 0 2 = 0 := by
  unfold canonicalizeExponent
  rw [show ((0 : ℚ) / 2) = 0 from by norm_num]
  rw [show (⌊(0 : ℚ)⌋ : ℤ) = 0 from floor_eq_of_bounds _ _ (by norm_num) (by norm_num)]
  norm_num

/-- The gate `S = Z**0.5` is a `RotZGate` instance with stored exponent 1/2. -/
theorem S_gate_eq : raiseToPower Zgate (1/2) = ⟨EGateType.rotZ, 1/2⟩ := by
  unfold raiseToPower Zgate canonicalPeriod
  rw [show ((1 : ℚ) * (1/2)) = 1/2 from by norm_num]
  exact congrArg (EGate.mk EGateType.rotZ) canon_half

/-- C1 counterexample: the gate `S = Z**0.5` (a `RotZGate`, canonical period
2, stored exponent 1/2) with real exponent `e = 0` refutes the claim:
`S ** (0 + 2)` is `Z` (exponent 1) while `S ** 0` has exponent 0, and the two
are not equal. -/
theorem exponent_period_roundtrip_counterexample :
    ¬ pyEq (raiseToPower (raiseToPower Zgate (1/2)) (0 + 2))
        (raiseToPower (raiseToPower Zgate (1/2)) 0) := by
  rw [S_gate_eq]
  have h2 : raiseToPower ⟨EGateType.rotZ, 1/2⟩ (0 + 2) = ⟨EGateType.rotZ, 1⟩ := by
    unfold raiseToPower canonicalPeriod
    rw [show ((1/2 : ℚ) * (0 + 2)) = 1 from by norm_num]
    exact congrArg (EGate.mk EGateType.rotZ) canon_one
  have h0 : raiseToPower ⟨EGateType.rotZ, 1/2⟩ 0 = ⟨EGateType.rotZ, 0⟩ := by
    unfold raiseToPower canonicalPeriod
    rw [show ((1/2 : ℚ) * 0) = 0 from by norm_num]
    exact congrArg (EGate.mk EGateType.rotZ) canon_zero
  rw [h2, h0]
  intro hcontra
  obtain ⟨-, habs⟩ := hcontra
  simp only [canonicalPeriod] at habs
  rw [canon_one, canon_zero] at habs
  exact absurd habs (by norm_num)

/-- C1 amended: for every gate of the five exponentiable classes whose
*stored* exponent is an integer — in particular every default-constructed
gate (`half_turns=1`), hence the named constants `X`, `Y`, `Z`, `CZ`,
`CNOT` — and every rational exponent `e`, raising the gate to the power
`e + p` (with `p = 2` the canonical period) yields a gate equal to raising
it to the power `e`.  For a non-integer stored exponent the round-trip
fails, see the counterexample. -/
theorem exponent_period_roundtrip_int (g : EGate) (e : ℚ) (n : ℤ)
    (hn : g.exponent = (n : ℚ)) :
    pyEq (raiseToPower g (e + canonicalPeriod g.ty)) (raiseToPower g e) := by
  have hexp : canonicalizeExponent (g.exponent * (e + 2)) 2 =
      canonicalizeExponent (g.exponent * e) 2 := by
    rw [hn, show ((n : ℚ) * (e + 2)) = (n : ℚ) * e + 2 * (n : ℚ) from by ring]
    exact canonicalize_add_int_mul _ _
  have hstruct : raiseToPower g (e + canonicalPeriod g.ty) = raiseToPower g e := by
    unfold raiseToPower canonicalPeriod
    exact congrArg (EGate.mk g.ty) hexp
  rw [hstruct]
  exact ⟨rfl, rfl⟩

/-- Witness for C1 amended: the constant `X` (stored exponent 1) at the
concrete exponent `e = 1/3`. -/
theorem exponent_period_roundtrip_int_witness :
    Xgate.exponent = ((1 : ℤ) : ℚ) ∧
    pyEq (raiseToPower Xgate (1/3 + canonicalPeriod Xgate.ty))
      (raiseToPower Xgate (1/3)) :=
  ⟨by norm_num [Xgate],
   exponent_period_roundtrip_int Xgate (1/3) 1 (by norm_num [Xgate])⟩

/-- C6: the named gate constants satisfy the documented identities:
`CZ == Rot11Gate(half_turns=1)`, `repr(CZ) == 'CZ'`, `CNOT**1 == CNOT`, and
`repr(CNOT**0.5) == 'CNOT**0.5'`. -/
theorem named_gate_constants :
    pyEq CZgate ⟨EGateType.rot11, 1⟩ ∧
    reprEGate CZgate = "CZ" ∧
    pyEq (raiseToPower CNOTgate 1) CNOTgate ∧
    reprEGate (raiseToPower CNOTgate (1/2)) = "CNOT**0.5" := by
  have hpow1 : raiseToPower CNOTgate 1 = CNOTgate := by
    unfold raiseToPower CNOTgate canonicalPeriod
    rw [show ((1 : ℚ) * 1) = 1 from by norm_num]
    exact congrArg (EGate.mk EGateType.cnot) canon_one
  have hpowHalf : raiseToPower CNOTgate (1/2) = ⟨EGateType.cnot, 1/2⟩ := by
    unfold raiseToPower CNOTgate canonicalPeriod
    rw [show ((1 : ℚ) * (1/2)) = 1/2 from by norm_num]
    exact congrArg (EGate.mk EGateType.cnot) canon_half
  refine ⟨⟨rfl, rfl⟩, by norm_num [reprEGate, CZgate], ?_, ?_⟩
  · rw [hpow1]
    exact ⟨rfl, rfl⟩
  · rw [hpowHalf]
    show (if (1/2 : ℚ) = 1 then "CNOT" else "CNOT**" ++ pyFloatRepr (1/2)) = "CNOT**0.5"
    rw [if_neg (by norm_num), pyFloatRepr_half]
    rfl

/-- C10: `repr` on `RotZGate` collapses the S gate onto Z: the source's
`__repr__` returns `'Z'` both for `half_turns=0.5` (i.e. `Z**0.5 = S`) and
for `half_turns=1`, although the two instances are distinct, so `repr`
neither shows the exponent of `S` nor separates it from `Z`. -/
theorem rotZ_repr_not_injective :
    reprEGate (raiseToPower Zgate (1/2)) = "Z" ∧
    reprEGate Zgate = "Z" ∧
    raiseToPower Zgate (1/2) ≠ Zgate := by
  refine ⟨?_, by norm_num [reprEGate, Zgate], ?_⟩
  · rw [S_gate_eq]
    show (if (1/2 : ℚ) = 1 then "Z"
      else if (1/2 : ℚ) = 1/2 then "Z" else "Z**" ++ pyFloatRepr (1/2)) = "Z"
    rw [if_neg (by norm_num), if_pos rfl]
  · rw [S_gate_eq]
    intro hcontra
    rw [show Zgate = ⟨EGateType.rotZ, 1⟩ from rfl, EGate.mk.injEq] at hcontra
    exact absurd hcontra.2 (by norm_num)

/-- C4 counterexample: `RotZGate(half_turns=0.25).text_diagram_wire_symbols()`
does not return the one-element tuple `('T',)` — the source's `return 'T'`
has no trailing comma, so it returns the bare string `'T'`. -/
theorem rotZ_wire_symbols_counterexample :
    rotZWireSymbols (1/4) ≠ TDReturn.tup ["T"] := by
  have habs : |(1/4 : ℚ)| = 1/4 := abs_of_pos (by norm_num)
  unfold rotZWireSymbols
  rw [habs, if_neg (by norm_num), if_pos rfl]
  simp

/-- C4 amended: `text_diagram_wire_symbols` on `RotZGate` returns the bare
string `'S'` whenever `|half_turns| = 0.5`, the bare string `'T'` whenever
`|half_turns| = 0.25` (strings, not one-element tuples, and negative
exponents included because the source compares `abs(half_turns)`), and the
one-element tuple `('Z',)` for every other value. -/
theorem rotZ_wire_symbols_amended (ht : ℚ) (h1 : |ht| ≠ 1/2) (h2 : |ht| ≠ 1/4) :
    rotZWireSymbols ht = TDReturn.tup ["Z"] ∧
    rotZWireSymbols (1/4) = TDReturn.single "T" ∧
    rotZWireSymbols (-(1/4)) = TDReturn.single "T" ∧
    rotZWireSymbols (1/2) = TDReturn.single "S" ∧
    rotZWireSymbols (-(1/2)) = TDReturn.single "S" := by
  have ha4 : |(1/4 : ℚ)| = 1/4 := abs_of_pos (by norm_num)
  have ha4n : |(-(1/4) : ℚ)| = 1/4 := by rw [abs_neg]; exact ha4
  have ha2 : |(1/2 : ℚ)| = 1/2 := abs_of_pos (by norm_num)
  have ha2n : |(-(1/2) : ℚ)| = 1/2 := by rw [abs_neg]; exact ha2
  refine ⟨?_, ?_, ?_, ?_, ?_⟩
  · unfold rotZWireSymbols
    rw [if_neg h1, if_neg h2]
  · unfold rotZWireSymbols
    rw [ha4, if_neg (by norm_num), if_pos rfl]
  · unfold rotZWireSymbols
    rw [ha4n, if_neg (by norm_num), if_pos rfl]
  · unfold rotZWireSymbols
    rw [ha2, if_pos rfl]
  · unfold rotZWireSymbols
    rw [ha2n, if_pos rfl]

/-- Witness for C4 amended at the concrete exponent `half_turns = 1`. -/
theorem rotZ_wire_symbols_amended_witness :
    |(1 : ℚ)| ≠ 1/2 ∧ |(1 : ℚ)| ≠ 1/4 ∧ rotZWireSymbols 1 = TDReturn.tup ["Z"] :=
  ⟨by norm_num, by norm_num,
   (rotZ_wire_symbols_amended 1 (by norm_num) (by norm_num)).1⟩

/-- C5 counterexample: `on_each` does not key the operations independently —
it applies the *same* gate object (hence the same key) to every target.  For
`MeasurementGate(key='a')` on targets `[0, 1]`, both returned operations
carry the key `'a'`. -/
theorem on_each_shared_key_counterexample :
    (MeasurementGate.onEach ⟨some "a", none⟩ [0, 1]).map (fun op => op.gate.key)
      = [some "a", some "a"] ∧
    ¬ ((MeasurementGate.onEach ⟨some "a", none⟩ [0, 1]).map
        (fun op => op.gate.key)).Nodup := by
  constructor
  · rfl
  · decide

/-- C5 amended: `on_each(targets)` returns a list with exactly one operation
per target, each operation measuring that single target, and every operation
carrying the same measurement gate — hence the same key — rather than being
independently keyed. -/
theorem on_each_one_op_per_target (g : MeasurementGate) (targets : List ℕ) :
    (g.onEach targets).length = targets.length ∧
    (∀ i : ℕ, (g.onEach targets)[i]? =
      (targets[i]?).map (fun t => Operation.mk g [t])) ∧
    (g.onEach targets).map (fun op => op.gate) = targets.map (fun _ => g) := by
  refine ⟨?_, ?_, ?_⟩
  · simp [MeasurementGate.onEach]
  · intro i
    simp [MeasurementGate.onEach, MeasurementGate.on]
  · simp only [MeasurementGate.onEach, MeasurementGate.on, List.map_map]
    induction targets with
    | nil => rfl
    | cons t ts ih =>
      rw [List.map_cons, List.map_cons, ih]
      rfl

/-- C7: `measure` without a key synthesizes the comma-joined string
representations of the qubits — in particular
`measure(q0, q1).gate.key == str(q0) + ',' + str(q1)` — and uses the
supplied key verbatim when one is given. -/
theorem measure_default_key (qs : List ℕ) (q0 q1 : ℕ) (k : String)
    (m : Option (List Bool)) :
    (measure qs none none).gate.key =
      some (commaJoin (qs.map (fun q => toString q))) ∧
    (measure [q0, q1] none none).gate.key =
      some (toString q0 ++ "," ++ toString q1) ∧
    (measure qs (some k) m).gate.key = some k :=
  ⟨rfl, rfl, rfl⟩

/-- C8: `validate_args(qubits)` fails exactly when the inversion mask is
present and longer than the qubit list; in every other case it returns
normally (the gate itself, being an immutable value in this embedding, is
unchanged). -/
theorem validate_args_error_iff (g : MeasurementGate) (qs : List ℕ) :
    (g.validateArgs qs ≠ Except.ok ()) ↔
      (∃ mask, g.invertMask = some mask ∧ mask.length > qs.length) := by
  unfold MeasurementGate.validateArgs
  cases h : g.invertMask with
  | none => simp
  | some mask =>
    by_cases hlen : mask.length > qs.length
    · simp [hlen]
    · simp [hlen]

/-- C9: constructing any of the five concrete exponentiable gate classes
with one or more positional arguments fails at construction time
(`assert not positional_args`), and the keyword-only construction succeeds,
storing `half_turns` as the exponent. -/
theorem positional_args_construction (ty : EGateType)
    (positionalArgs : List Unit) (halfTurns : ℚ) :
    ((∃ e, mkEigenGate ty positionalArgs halfTurns = Except.error e) ↔
      positionalArgs ≠ []) ∧
    mkEigenGate ty [] halfTurns = Except.ok ⟨ty, halfTurns⟩ := by
  constructor
  · by_cases h : positionalArgs = [] <;> simp [mkEigenGate, h]
  · simp [mkEigenGate]

end Cirq
